import Mathlib

/-!
# The batch position evaluator `rhumb_line_positions`

Shallow embedding of `src/cython_extern_src/rhumb_line_positions.cpp`:

    static void rhumb_line_positions(const GeographicLib::Rhumb *rhumb,
        double lat1, double lon1, double azi12,
        double s12[], size_t num_positions, double lat2[], double lon2[]) {
      GeographicLib::RhumbLine line = rhumb->Line(lat1, lon1, azi12);
      for (size_t i = 0; i < num_positions; i++) {
        line.Position(s12[i], lat2[i], lon2[i]);
      }
    }

The function performs no arithmetic on the `double` values, it only moves
them, so the embedding is generic in the value type `D`.  The two members of
GeographicLib that the function calls are parameters of the embedding.  The
three arrays are separate buffers, as allocated by the caller.
-/

namespace RhumbLinePositions

/-- Number of values of the index type `size_t` (64-bit target). -/
def SIZE_MODULUS : Nat := 2 ^ 64

/-- The part of GeographicLib the function uses.  `Line` is `Rhumb::Line`,
which builds the line object; `Position` is `RhumbLine::Position`, whose two
reference parameters are its result here.  A C++ exception leaving `Position`
is the `error` case; nothing has been stored through the references then. -/
structure GeographicLib (R L D E : Type) where
  Line : R → D → D → D → L
  Position : L → D → Except E (D × D)

/-- Observable operations of one run, in program order. -/
inductive Event (D : Type) where
  | line (lat1 lon1 azi12 : D)
  | read_s12 (i : Nat)
  | position (s : D)
  | write_lat2 (i : Nat)
  | write_lon2 (i : Nat)
  | incr (i next : Nat)
  deriving DecidableEq

/-- Memory and loop variable of a run, with the log of its operations. -/
structure State (D : Type) where
  s12 : List D
  lat2 : List D
  lon2 : List D
  i : Nat
  trace : List (Event D)
  deriving DecidableEq

/-- How a run ends: normal return, an exception propagated out of `Position`,
an array access past the end of a buffer (undefined behaviour in C++), or the
evaluation budget of the model being used up. -/
inductive Status (E : Type) where
  | returned
  | raised (e : E)
  | outOfBounds
  | outOfFuel
  deriving DecidableEq

/-- The `for` loop of lines 6 to 8.  One unit of fuel is one evaluation of
the loop condition. -/
def loop {R L D E : Type} (lib : GeographicLib R L D E) (line : L) (num_positions : Nat) :
    Nat → State D → Status E × State D
  | 0, st => (Status.outOfFuel, st)
  | fuel + 1, st =>
    if st.i < num_positions then
      match st.s12[st.i]? with
      | none => (Status.outOfBounds, st)
      | some s =>
        if st.i < st.lat2.length ∧ st.i < st.lon2.length then
          match lib.Position line s with
          | Except.error e =>
            (Status.raised e,
              { st with trace := st.trace ++ [Event.read_s12 st.i, Event.position s] })
          | Except.ok (lat, lon) =>
            loop lib line num_positions fuel
              { st with
                lat2 := st.lat2.set st.i lat
                lon2 := st.lon2.set st.i lon
                i := (st.i + 1) % SIZE_MODULUS
                trace := st.trace ++
                  [Event.read_s12 st.i, Event.position s, Event.write_lat2 st.i,
                   Event.write_lon2 st.i, Event.incr st.i ((st.i + 1) % SIZE_MODULUS)] }
        else (Status.outOfBounds, st)
    else (Status.returned, st)

/-- The function `rhumb_line_positions`: build the line once, then run the
loop from index 0.  Parameters are in the order of the C++ signature. -/
def rhumb_line_positions {R L D E : Type} (lib : GeographicLib R L D E) (fuel : Nat)
    (rhumb : R) (lat1 lon1 azi12 : D) (s12 : List D) (num_positions : Nat)
    (lat2 lon2 : List D) : Status E × State D :=
  let line := lib.Line rhumb lat1 lon1 azi12
  loop lib line num_positions fuel
    { s12 := s12, lat2 := lat2, lon2 := lon2, i := 0,
      trace := [Event.line lat1 lon1 azi12] }

/-! ## Specification helpers -/

/-- Log of one completed loop iteration at index `i` for distance `s`. -/
def bodyEvents {D : Type} (s : D) (i : Nat) : List (Event D) :=
  [Event.read_s12 i, Event.position s, Event.write_lat2 i, Event.write_lon2 i,
   Event.incr i (i + 1)]

/-- Log of a loop iteration at index `i` that `Position` left by an exception. -/
def abortEvents {D : Type} (s : D) (i : Nat) : List (Event D) :=
  [Event.read_s12 i, Event.position s]

/-- Log of the `c` completed iterations at indices `i`, `i + 1`, ... -/
def completedEvents {D : Type} (s12 : List D) : Nat → Nat → List (Event D)
  | _, 0 => []
  | i, c + 1 =>
    (match s12[i]? with
      | some s => bodyEvents s i
      | none => []) ++ completedEvents s12 (i + 1) c

/-- Whether an event is the construction of the line. -/
def Event.isLineCall {D : Type} : Event D → Bool
  | Event.line _ _ _ => true
  | _ => false

/-- Whether an event is a call of `Position`, that is, one execution of the
loop body. -/
def Event.isPositionCall {D : Type} : Event D → Bool
  | Event.position _ => true
  | _ => false

/-- Number of times the line was constructed. -/
def lineCalls {D : Type} (tr : List (Event D)) : Nat := tr.countP Event.isLineCall

/-- Number of loop iterations begun. -/
def iterations {D : Type} (tr : List (Event D)) : Nat := tr.countP Event.isPositionCall

/-- The first `n` result pairs held by the output arrays. -/
def outputs {D : Type} (st : State D) (n : Nat) : List (D × D) :=
  (st.lat2.take n).zip (st.lon2.take n)

/-! ## Sample instances

A small value domain and two libraries over it, used to instantiate the
general statements at concrete inputs. -/

/-- A value of the sample domain: a finite number or not-a-number. -/
inductive Dbl where
  | num (z : Int)
  | nan
  deriving DecidableEq

/-- Finiteness test of the sample domain (`std::isfinite`). -/
def Dbl.isFinite : Dbl → Bool
  | Dbl.num _ => true
  | Dbl.nan => false

/-- Addition of the sample domain; not-a-number is absorbing. -/
def Dbl.add : Dbl → Dbl → Dbl
  | Dbl.num a, Dbl.num b => Dbl.num (a + b)
  | _, _ => Dbl.nan

/-- The error a sample library can raise. -/
inductive GeographicErr where
  | nonFinite
  deriving DecidableEq

/-- A sample library whose `Position` raises an error on a non-finite distance
and otherwise moves both coordinates of the start point by the distance. -/
def strictLib : GeographicLib Unit (Dbl × Dbl) Dbl GeographicErr where
  Line := fun _ lat1 lon1 _ => (lat1, lon1)
  Position := fun line s =>
    match s with
    | Dbl.num z => Except.ok (line.1.add (Dbl.num z), line.2.add (Dbl.num z))
    | Dbl.nan => Except.error GeographicErr.nonFinite

/-- A sample library whose `Position` never raises an error: a non-finite
distance propagates into both coordinates of the result. -/
def quietLib : GeographicLib Unit (Dbl × Dbl) Dbl GeographicErr where
  Line := fun _ lat1 lon1 _ => (lat1, lon1)
  Position := fun line s => Except.ok (line.1.add s, line.2.add s)

/-- Sample distances, all finite. -/
def sampleDistances : List Dbl := [Dbl.num 0, Dbl.num 5, Dbl.num 7]

/-- Sample output buffer of three entries. -/
def sampleBuffer : List Dbl := [Dbl.nan, Dbl.nan, Dbl.nan]

/-! ## The solver and the line, as the specification describes them -/

/-- Modelled from the spec: the rhumb solver of GeographicLib (class `Rhumb`),
which is not part of the sources.  Section 4.2 describes `direct` as: compute
the rectifying and isometric latitude of the start point and the sine and
cosine of the azimuth, then advance along the line by the distance.  The
numerical evaluators are fields of the solver: the specification fixes their
contract, not their method.  `directBranch lat1 lon1 mu1 psi1 sinAzi cosAzi s12`
is the advance from the start-point quantities to the end point. -/
structure Rhumb (D E : Type) where
  rectifyingLatitude : D → D
  isometricLatitude : D → D
  sinAzimuth : D → D
  cosAzimuth : D → D
  directBranch : D → D → D → D → D → D → D → Except E (D × D)

/-- Modelled from the spec: the rhumb line of GeographicLib (class
`RhumbLine`), which is not part of the sources.  Section 3: start point and
azimuth, with the rectifying latitude `mu1` and isometric latitude `psi1` of
the start point and the sine and cosine of the azimuth derived at
construction; the line keeps the evaluators of the solver that built it. -/
structure RhumbLine (D E : Type) where
  rh : Rhumb D E
  lat1 : D
  lon1 : D
  azi12 : D
  mu1 : D
  psi1 : D
  sinAzi : D
  cosAzi : D

/-- Modelled from the spec: the line factory `line(lat1, lon1, azi12)` of
section 4.2, which computes the derived quantities of the start point. -/
def Rhumb.Line {D E : Type} (rh : Rhumb D E) (lat1 lon1 azi12 : D) : RhumbLine D E :=
  { rh := rh, lat1 := lat1, lon1 := lon1, azi12 := azi12,
    mu1 := rh.rectifyingLatitude lat1, psi1 := rh.isometricLatitude lat1,
    sinAzi := rh.sinAzimuth azi12, cosAzi := rh.cosAzimuth azi12 }

/-- Modelled from the spec: `direct(lat1, lon1, azi12, s12)` of section 4.2,
which derives the start-point quantities on every call. -/
def Rhumb.Direct {D E : Type} (rh : Rhumb D E) (lat1 lon1 azi12 s12 : D) : Except E (D × D) :=
  rh.directBranch lat1 lon1 (rh.rectifyingLatitude lat1) (rh.isometricLatitude lat1)
    (rh.sinAzimuth azi12) (rh.cosAzimuth azi12) s12

/-- Modelled from the spec: `position(s12)` of section 4.3, the algorithm of
the Direct branch on the cached start-point quantities of the line. -/
def RhumbLine.Position {D E : Type} (line : RhumbLine D E) (s12 : D) : Except E (D × D) :=
  line.rh.directBranch line.lat1 line.lon1 line.mu1 line.psi1 line.sinAzi line.cosAzi s12

/-- Modelled from the spec: the library made of the solver and the line above. -/
def specLib (D E : Type) : GeographicLib (Rhumb D E) (RhumbLine D E) D E where
  Line := Rhumb.Line
  Position := RhumbLine.Position

/-- A sample solver over the sample domain: the latitude advances by the
distance scaled by the cosine term, the longitude by the sine term. -/
def sampleRhumb : Rhumb Dbl GeographicErr where
  rectifyingLatitude := fun lat => lat.add (Dbl.num 1)
  isometricLatitude := fun lat => lat.add (Dbl.num 2)
  sinAzimuth := fun _ => Dbl.num 1
  cosAzimuth := fun _ => Dbl.num 1
  directBranch := fun _ lon1 mu1 _ _ _ s12 =>
    match s12 with
    | Dbl.num z => Except.ok (mu1.add (Dbl.num z), lon1.add (Dbl.num z))
    | Dbl.nan => Except.error GeographicErr.nonFinite

/-! ## The error policy of `Position`, as the specification describes it -/

/-- A C++ `double` (IEEE-754 binary64) by class: a finite number
`± significand * 2 ^ exponent`, an infinity, or a not-a-number.  The function
under study never inspects a value, so only the class matters here. -/
inductive Double where
  | finite (negative : Bool) (significand : Nat) (exponent : Int)
  | infinity (negative : Bool)
  | nan
  deriving DecidableEq

/-- Finiteness of a `double` (`std::isfinite`). -/
def Double.isFinite : Double → Bool
  | Double.finite _ _ _ => true
  | Double.infinity _ => false
  | Double.nan => false

/-- Modelled from the spec: a rhumb solver of GeographicLib, which is not part
of the sources, with the error policy of sections 4.4 and 5: a call of
`position` either returns a result or fails synchronously with an error, and
it fails only if the distance is non-finite.  `advance` is the numerical
result of the Direct branch on a finite distance, from the start-point
quantities of section 3.  The specification sentence bounds failure from above
only, so what the branch does on a non-finite distance is the field
`nonFiniteBranch`, left open. -/
structure PolicyRhumb (E : Type) where
  rectifyingLatitude : Double → Double
  isometricLatitude : Double → Double
  sinAzimuth : Double → Double
  cosAzimuth : Double → Double
  advance : Double → Double → Double → Double → Double → Double → Double → Double × Double
  nonFiniteBranch :
    Double → Double → Double → Double → Double → Double → Double → Except E (Double × Double)

/-- Modelled from the spec: the solver of sections 4.2 and 4.3 that follows
the error policy; its Direct branch returns the numerical result on a finite
distance. -/
def PolicyRhumb.toRhumb {E : Type} (rh : PolicyRhumb E) : Rhumb Double E where
  rectifyingLatitude := rh.rectifyingLatitude
  isometricLatitude := rh.isometricLatitude
  sinAzimuth := rh.sinAzimuth
  cosAzimuth := rh.cosAzimuth
  directBranch := fun lat1 lon1 mu1 psi1 sinAzi cosAzi s12 =>
    if s12.isFinite = true then Except.ok (rh.advance lat1 lon1 mu1 psi1 sinAzi cosAzi s12)
    else rh.nonFiniteBranch lat1 lon1 mu1 psi1 sinAzi cosAzi s12

/-- Modelled from the spec: the numerical result of `position` on a finite
distance, for the line built from the given start point and azimuth. -/
def PolicyRhumb.positionOnFinite {E : Type} (rh : PolicyRhumb E) (lat1 lon1 azi12 s12 : Double) :
    Double × Double :=
  rh.advance lat1 lon1 (rh.rectifyingLatitude lat1) (rh.isometricLatitude lat1)
    (rh.sinAzimuth azi12) (rh.cosAzimuth azi12) s12

/-- Modelled from the spec: what `position` does on a non-finite distance, for
the line built from the given start point and azimuth. -/
def PolicyRhumb.onNonFinite {E : Type} (rh : PolicyRhumb E) (lat1 lon1 azi12 s12 : Double) :
    Except E (Double × Double) :=
  rh.nonFiniteBranch lat1 lon1 (rh.rectifyingLatitude lat1) (rh.isometricLatitude lat1)
    (rh.sinAzimuth azi12) (rh.cosAzimuth azi12) s12

/-- A sample solver with the error policy: on a finite distance the latitude
is the distance and the longitude that of the start point; on a non-finite
distance it raises an error. -/
def samplePolicyRhumb : PolicyRhumb GeographicErr where
  rectifyingLatitude := fun lat => lat
  isometricLatitude := fun lat => lat
  sinAzimuth := fun azi => azi
  cosAzimuth := fun azi => azi
  advance := fun _ lon1 _ _ _ _ s12 => (s12, lon1)
  nonFiniteBranch := fun _ _ _ _ _ _ _ => Except.error GeographicErr.nonFinite

/-! ## The loop, one iteration at a time -/

theorem loop_done {R L D E : Type} (lib : GeographicLib R L D E) (line : L) (n fuel : Nat)
    (st : State D) (h : ¬ st.i < n) :
    loop lib line n (fuel + 1) st = (Status.returned, st) := by
  simp [loop, h]

theorem loop_error {R L D E : Type} (lib : GeographicLib R L D E) (line : L) (n fuel : Nat)
    (st : State D) (s : D) (e : E) (h : st.i < n) (hs : st.s12[st.i]? = some s)
    (h1 : st.i < st.lat2.length) (h2 : st.i < st.lon2.length)
    (hp : lib.Position line s = Except.error e) :
    loop lib line n (fuel + 1) st =
      (Status.raised e, { st with trace := st.trace ++ abortEvents s st.i }) := by
  simp [loop, h, hs, h1, h2, hp, abortEvents]

theorem loop_ok {R L D E : Type} (lib : GeographicLib R L D E) (line : L) (n fuel : Nat)
    (st : State D) (s lat lon : D) (h : st.i < n) (hn : n < SIZE_MODULUS)
    (hs : st.s12[st.i]? = some s)
    (h1 : st.i < st.lat2.length) (h2 : st.i < st.lon2.length)
    (hp : lib.Position line s = Except.ok (lat, lon)) :
    loop lib line n (fuel + 1) st =
      loop lib line n fuel
        { st with
          lat2 := st.lat2.set st.i lat
          lon2 := st.lon2.set st.i lon
          i := st.i + 1
          trace := st.trace ++ bodyEvents s st.i } := by
  have hm : (st.i + 1) % SIZE_MODULUS = st.i + 1 := Nat.mod_eq_of_lt (by omega)
  simp [loop, h, hs, h1, h2, hp, bodyEvents, hm]

/-! ## The loop invariant -/

/-- Behaviour of the loop from any state within bounds: it runs the iterations
`st.i`, ..., `k - 1` to completion and then either returns normally (`k = n`)
or is left by the exception that `Position` raises at index `k`. -/
theorem loop_spec {R L D E : Type} (lib : GeographicLib R L D E) (line : L) (n : Nat)
    (hn : n < SIZE_MODULUS) :
    ∀ (fuel : Nat) (st : State D), st.i ≤ n → n ≤ st.s12.length → n ≤ st.lat2.length →
      n ≤ st.lon2.length → n - st.i < fuel →
      ∃ k, st.i ≤ k ∧ k ≤ n ∧
        (loop lib line n fuel st).2.s12 = st.s12 ∧
        (loop lib line n fuel st).2.lat2.length = st.lat2.length ∧
        (loop lib line n fuel st).2.lon2.length = st.lon2.length ∧
        (∀ j, st.i ≤ j → j < k → ∃ s lat lon, st.s12[j]? = some s ∧
          lib.Position line s = Except.ok (lat, lon) ∧
          (loop lib line n fuel st).2.lat2[j]? = some lat ∧
          (loop lib line n fuel st).2.lon2[j]? = some lon) ∧
        (∀ j, j < st.i ∨ k ≤ j →
          (loop lib line n fuel st).2.lat2[j]? = st.lat2[j]? ∧
          (loop lib line n fuel st).2.lon2[j]? = st.lon2[j]?) ∧
        ((k = n ∧ (loop lib line n fuel st).1 = Status.returned ∧
            (loop lib line n fuel st).2.i = n ∧
            (loop lib line n fuel st).2.trace =
              st.trace ++ completedEvents st.s12 st.i (k - st.i)) ∨
         (k < n ∧ ∃ s e, st.s12[k]? = some s ∧ lib.Position line s = Except.error e ∧
            (loop lib line n fuel st).1 = Status.raised e ∧
            (loop lib line n fuel st).2.trace =
              st.trace ++ completedEvents st.s12 st.i (k - st.i) ++ abortEvents s k)) := by
  intro fuel
  induction fuel with
  | zero => intro st _ _ _ _ hf; omega
  | succ fuel ih =>
    intro st hi hs h1 h2 hf
    by_cases hlt : st.i < n
    · have hsl : st.i < st.s12.length := by omega
      have hsome : st.s12[st.i]? = some st.s12[st.i] := List.getElem?_eq_getElem hsl
      cases hp : lib.Position line st.s12[st.i] with
      | error e =>
        rw [loop_error lib line n fuel st _ e hlt hsome (by omega) (by omega) hp]
        refine ⟨st.i, le_refl _, le_of_lt hlt, rfl, rfl, rfl, ?_, ?_, ?_⟩
        · intro j hj hj'; omega
        · intro j _; exact ⟨rfl, rfl⟩
        · right
          refine ⟨hlt, _, e, hsome, hp, rfl, ?_⟩
          simp [completedEvents]
      | ok p =>
        obtain ⟨lat, lon⟩ := p
        rw [loop_ok lib line n fuel st _ lat lon hlt hn hsome (by omega) (by omega) hp]
        obtain ⟨k, hk1, hk2, hks, hkl1, hkl2, hkw, hkf, hke⟩ :=
          ih { st with
                lat2 := st.lat2.set st.i lat
                lon2 := st.lon2.set st.i lon
                i := st.i + 1
                trace := st.trace ++ bodyEvents st.s12[st.i] st.i }
            (by simpa using hlt) (by simpa using hs) (by simpa using h1) (by simpa using h2)
            (by simp only; omega)
        simp only [List.length_set] at hk1 hk2 hks hkl1 hkl2 hkw hkf hke
        have hcomp : completedEvents st.s12 st.i (k - st.i) =
            bodyEvents st.s12[st.i] st.i ++ completedEvents st.s12 (st.i + 1) (k - (st.i + 1)) := by
          have : k - st.i = (k - (st.i + 1)) + 1 := by omega
          rw [this, completedEvents, hsome]
        refine ⟨k, by omega, hk2, hks, hkl1, hkl2, ?_, ?_, ?_⟩
        · intro j hj hj'
          by_cases hji : j = st.i
          · subst hji
            obtain ⟨hf1, hf2⟩ := hkf st.i (Or.inl (Nat.lt_succ_self _))
            refine ⟨_, lat, lon, hsome, hp, ?_, ?_⟩
            · rw [hf1]; exact List.getElem?_set_self (by omega)
            · rw [hf2]; exact List.getElem?_set_self (by omega)
          · exact hkw j (by omega) hj'
        · intro j hj
          have hne : st.i ≠ j := by omega
          obtain ⟨hf1, hf2⟩ := hkf j (by omega)
          exact ⟨by rw [hf1]; exact List.getElem?_set_ne hne,
                 by rw [hf2]; exact List.getElem?_set_ne hne⟩
        · rcases hke with ⟨e1, e2, e3, e4⟩ | ⟨e1, s, e, e2, e3, e4, e5⟩
          · left
            refine ⟨e1, e2, e3, ?_⟩
            rw [e4, hcomp, List.append_assoc]
          · right
            refine ⟨e1, s, e, e2, e3, e4, ?_⟩
            rw [e5, hcomp]; simp [List.append_assoc]
    · have hin : st.i = n := by omega
      rw [loop_done lib line n fuel st hlt]
      refine ⟨n, hi, le_refl _, rfl, rfl, rfl, ?_, ?_, ?_⟩
      · intro j hj hj'; omega
      · intro j _; exact ⟨rfl, rfl⟩
      · left
        refine ⟨rfl, rfl, hin, ?_⟩
        simp [hin, completedEvents]

/-- The loop invariant at the level of the whole function. -/
theorem run_spec {R L D E : Type} (lib : GeographicLib R L D E) (fuel : Nat) (rhumb : R)
    (lat1 lon1 azi12 : D) (s12 : List D) (n : Nat) (lat2 lon2 : List D)
    (status : Status E) (st : State D)
    (hn : n < SIZE_MODULUS) (hs : n ≤ s12.length) (h1 : n ≤ lat2.length)
    (h2 : n ≤ lon2.length) (hf : n < fuel)
    (hrun : rhumb_line_positions lib fuel rhumb lat1 lon1 azi12 s12 n lat2 lon2 = (status, st)) :
    ∃ k, k ≤ n ∧ st.s12 = s12 ∧ st.lat2.length = lat2.length ∧
      st.lon2.length = lon2.length ∧
      (∀ j, j < k → ∃ s lat lon, s12[j]? = some s ∧
        lib.Position (lib.Line rhumb lat1 lon1 azi12) s = Except.ok (lat, lon) ∧
        st.lat2[j]? = some lat ∧ st.lon2[j]? = some lon) ∧
      (∀ j, k ≤ j → st.lat2[j]? = lat2[j]? ∧ st.lon2[j]? = lon2[j]?) ∧
      ((k = n ∧ status = Status.returned ∧ st.i = n ∧
          st.trace = Event.line lat1 lon1 azi12 :: completedEvents s12 0 n) ∨
       (k < n ∧ ∃ s e, s12[k]? = some s ∧
          lib.Position (lib.Line rhumb lat1 lon1 azi12) s = Except.error e ∧
          status = Status.raised e ∧
          st.trace = Event.line lat1 lon1 azi12 :: (completedEvents s12 0 k ++ abortEvents s k))) := by
  obtain ⟨k, -, hk2, hks, hkl1, hkl2, hkw, hkf, hke⟩ :=
    loop_spec lib (lib.Line rhumb lat1 lon1 azi12) n hn fuel
      { s12 := s12, lat2 := lat2, lon2 := lon2, i := 0,
        trace := [Event.line lat1 lon1 azi12] }
      (Nat.zero_le _) hs h1 h2 (by simpa using hf)
  have hrun' : loop lib (lib.Line rhumb lat1 lon1 azi12) n fuel
      { s12 := s12, lat2 := lat2, lon2 := lon2, i := 0,
        trace := [Event.line lat1 lon1 azi12] } = (status, st) := hrun
  rw [hrun'] at hks hkl1 hkl2 hkw hkf hke
  simp only [Nat.sub_zero] at hke
  refine ⟨k, hk2, hks, hkl1, hkl2, fun j hj => hkw j (Nat.zero_le _) hj,
    fun j hj => hkf j (Or.inr hj), ?_⟩
  rcases hke with ⟨e1, e2, e3, e4⟩ | ⟨e1, s, e, e2, e3, e4, e5⟩
  · left
    subst e1
    exact ⟨rfl, e2, e3, by simpa using e4⟩
  · right
    exact ⟨e1, s, e, e2, e3, e4, by simpa using e5⟩

/-! ## Facts about the log -/

theorem mem_completedEvents {D : Type} (s12 : List D) (ev : Event D) :
    ∀ (c i : Nat), ev ∈ completedEvents s12 i c →
      ∃ j s, i ≤ j ∧ j < i + c ∧ s12[j]? = some s ∧ ev ∈ bodyEvents s j := by
  intro c
  induction c with
  | zero => intro i h; simp [completedEvents] at h
  | succ c ih =>
    intro i h
    rw [completedEvents, List.mem_append] at h
    rcases h with h | h
    · cases hs : s12[i]? with
      | none => rw [hs] at h; simp at h
      | some s =>
        rw [hs] at h
        exact ⟨i, s, le_refl _, by omega, hs, h⟩
    · obtain ⟨j, s, hj1, hj2, hj3, hj4⟩ := ih (i + 1) h
      exact ⟨j, s, by omega, by omega, hj3, hj4⟩

theorem iterations_completedEvents {D : Type} (s12 : List D) :
    ∀ (c i : Nat), i + c ≤ s12.length → iterations (completedEvents s12 i c) = c := by
  intro c
  induction c with
  | zero => intro i _; simp [completedEvents, iterations]
  | succ c ih =>
    intro i h
    have hi : i < s12.length := by omega
    have hc := ih (i + 1) (by omega)
    unfold iterations at hc ⊢
    rw [completedEvents, List.getElem?_eq_getElem hi, List.countP_append, hc]
    simp [bodyEvents, Event.isPositionCall, List.countP_cons]
    omega

theorem lineCalls_completedEvents {D : Type} (s12 : List D) (i c : Nat) :
    lineCalls (completedEvents s12 i c) = 0 := by
  unfold lineCalls
  rw [List.countP_eq_zero]
  intro ev hev
  obtain ⟨j, s, -, -, -, hb⟩ := mem_completedEvents s12 ev c i hev
  simp only [bodyEvents, List.mem_cons, List.mem_singleton, List.not_mem_nil, or_false] at hb
  rcases hb with h | h | h | h | h <;> subst h <;> simp [Event.isLineCall]

/-! ## Facts about the result pairs -/

theorem outputs_length {D : Type} (st : State D) (n : Nat) (h1 : n ≤ st.lat2.length)
    (h2 : n ≤ st.lon2.length) : (outputs st n).length = n := by
  simp [outputs, List.length_zip, List.length_take, Nat.min_eq_left h1, Nat.min_eq_left h2]

theorem outputs_getElem? {D : Type} (st : State D) (n i : Nat) (a b : D) (hi : i < n)
    (ha : st.lat2[i]? = some a) (hb : st.lon2[i]? = some b) :
    (outputs st n)[i]? = some (a, b) := by
  rw [outputs, List.getElem?_zip_eq_some]
  exact ⟨by rw [List.getElem?_take_of_lt hi]; exact ha,
         by rw [List.getElem?_take_of_lt hi]; exact hb⟩

/-! ## Consequences of the invariant shared by the claims -/

/-- A run that returns normally has stored the result of `Position` for every
one of the first `n` distances. -/
theorem run_returned {R L D E : Type} (lib : GeographicLib R L D E) (fuel : Nat) (rhumb : R)
    (lat1 lon1 azi12 : D) (s12 : List D) (n : Nat) (lat2 lon2 : List D) (st : State D)
    (hn : n < SIZE_MODULUS) (hs : n ≤ s12.length) (h1 : n ≤ lat2.length)
    (h2 : n ≤ lon2.length) (hf : n < fuel)
    (hrun : rhumb_line_positions lib fuel rhumb lat1 lon1 azi12 s12 n lat2 lon2 =
      (Status.returned, st)) :
    ∀ i, i < n → ∃ s lat lon, s12[i]? = some s ∧
      lib.Position (lib.Line rhumb lat1 lon1 azi12) s = Except.ok (lat, lon) ∧
      st.lat2[i]? = some lat ∧ st.lon2[i]? = some lon := by
  obtain ⟨k, -, -, -, -, hw, -, hend⟩ :=
    run_spec lib fuel rhumb lat1 lon1 azi12 s12 n lat2 lon2 _ st hn hs h1 h2 hf hrun
  rcases hend with ⟨e1, -, -, -⟩ | ⟨-, s, e, -, -, e4, -⟩
  · subst e1; exact hw
  · cases e4

/-- A run on distances on each of which `Position` returns normally returns
normally. -/
theorem run_all_ok {R L D E : Type} (lib : GeographicLib R L D E) (fuel : Nat) (rhumb : R)
    (lat1 lon1 azi12 : D) (s12 : List D) (n : Nat) (lat2 lon2 : List D)
    (status : Status E) (st : State D)
    (hn : n < SIZE_MODULUS) (hs : n ≤ s12.length) (h1 : n ≤ lat2.length)
    (h2 : n ≤ lon2.length) (hf : n < fuel)
    (hpos : ∀ i s, i < n → s12[i]? = some s →
      ∃ p, lib.Position (lib.Line rhumb lat1 lon1 azi12) s = Except.ok p)
    (hrun : rhumb_line_positions lib fuel rhumb lat1 lon1 azi12 s12 n lat2 lon2 = (status, st)) :
    status = Status.returned := by
  obtain ⟨k, -, -, -, -, -, -, hend⟩ :=
    run_spec lib fuel rhumb lat1 lon1 azi12 s12 n lat2 lon2 status st hn hs h1 h2 hf hrun
  rcases hend with ⟨-, e2, -, -⟩ | ⟨e1, s, e, e2, e3, -, -⟩
  · exact e2
  · obtain ⟨p, hp⟩ := hpos k s e1 e2
    rw [hp] at e3
    cases e3

/-- Shape of an event of the log of a run that stopped at index `k`. -/
theorem mem_trace_cases {D : Type} (s12 : List D) (k : Nat) (tail : List (Event D))
    (lat1 lon1 azi12 : D) (ev : Event D)
    (h : ev ∈ Event.line lat1 lon1 azi12 :: (completedEvents s12 0 k ++ tail)) :
    ev = Event.line lat1 lon1 azi12 ∨
    (∃ j s, j < k ∧ s12[j]? = some s ∧ ev ∈ bodyEvents s j) ∨ ev ∈ tail := by
  rw [List.mem_cons, List.mem_append] at h
  rcases h with h | h | h
  · exact Or.inl h
  · obtain ⟨j, s, -, hj, hs, hb⟩ := mem_completedEvents s12 ev k 0 h
    exact Or.inr (Or.inl ⟨j, s, by omega, hs, hb⟩)
  · exact Or.inr (Or.inr h)

/-- Every event of a completed iteration is in the log of the completed
iterations. -/
theorem bodyEvents_subset_completedEvents {D : Type} (s12 : List D) (j : Nat) (s : D)
    (hs : s12[j]? = some s) (ev : Event D) (hev : ev ∈ bodyEvents s j) :
    ∀ (c i : Nat), i ≤ j → j < i + c → ev ∈ completedEvents s12 i c := by
  intro c
  induction c with
  | zero => intro i h1 h2; omega
  | succ c ih =>
    intro i h1 h2
    rw [completedEvents, List.mem_append]
    by_cases hij : i = j
    · subst hij
      left
      rw [hs]
      exact hev
    · right
      exact ih (i + 1) (by omega) (by omega)

/-! ## The claims -/

/-- C1: for every solver, start point, azimuth and sequence of distances on
each of which `Position` returns normally, `rhumb_line_positions` returns
normally and has produced exactly `n` results in input order: entry `i` of the
outputs is the result of `Position` on entry `i` of the distances, on the one
line built by `Line`; the outputs are the map of `Position` over the inputs. -/
theorem rhumb_line_positions_eq_map {R L D E : Type} (lib : GeographicLib R L D E)
    (fuel : Nat) (rhumb : R) (lat1 lon1 azi12 : D) (s12 : List D) (n : Nat)
    (lat2 lon2 : List D) (status : Status E) (st : State D)
    (hn : n < SIZE_MODULUS) (hs : n ≤ s12.length) (h1 : n ≤ lat2.length)
    (h2 : n ≤ lon2.length) (hf : n < fuel)
    (hpos : ∀ i s, i < n → s12[i]? = some s →
      ∃ p, lib.Position (lib.Line rhumb lat1 lon1 azi12) s = Except.ok p)
    (hrun : rhumb_line_positions lib fuel rhumb lat1 lon1 azi12 s12 n lat2 lon2 = (status, st)) :
    status = Status.returned ∧ (outputs st n).length = n ∧
    (s12.take n).map (lib.Position (lib.Line rhumb lat1 lon1 azi12)) =
      (outputs st n).map Except.ok ∧
    ∀ i, i < n → ∃ s lat lon, s12[i]? = some s ∧ st.lat2[i]? = some lat ∧
      st.lon2[i]? = some lon ∧
      lib.Position (lib.Line rhumb lat1 lon1 azi12) s = Except.ok (lat, lon) := by
  obtain ⟨k, hk, -, hl1, hl2, hw, -, hend⟩ :=
    run_spec lib fuel rhumb lat1 lon1 azi12 s12 n lat2 lon2 status st hn hs h1 h2 hf hrun
  rcases hend with ⟨e1, e2, -, -⟩ | ⟨e1, s, e, e2, e3, -, -⟩
  · subst e1
    have hlen : (outputs st k).length = k := outputs_length st k (by omega) (by omega)
    refine ⟨e2, hlen, ?_, ?_⟩
    · apply List.ext_getElem?
      intro i
      by_cases hi : i < k
      · obtain ⟨s, lat, lon, a1, a2, a3, a4⟩ := hw i hi
        rw [List.getElem?_map, List.getElem?_map, List.getElem?_take_of_lt hi, a1,
          outputs_getElem? st k i lat lon hi a3 a4]
        simp [a2]
      · rw [List.getElem?_eq_none (by simp; omega), List.getElem?_eq_none (by simp; omega)]
    · intro i hi
      obtain ⟨s, lat, lon, a1, a2, a3, a4⟩ := hw i hi
      exact ⟨s, lat, lon, a1, a3, a4, a2⟩
  · obtain ⟨p, hp⟩ := hpos k s e1 e2
    rw [hp] at e3
    cases e3

/-- Instance of C1: three finite distances on the sample library. -/
theorem rhumb_line_positions_eq_map_witness :
    (rhumb_line_positions strictLib 4 () (Dbl.num 40) (Dbl.num (-73)) (Dbl.num 45)
      sampleDistances 3 sampleBuffer sampleBuffer).1 = Status.returned ∧
    (rhumb_line_positions strictLib 4 () (Dbl.num 40) (Dbl.num (-73)) (Dbl.num 45)
      sampleDistances 3 sampleBuffer sampleBuffer).2.lat2 =
      [Dbl.num 40, Dbl.num 45, Dbl.num 47] ∧
    (rhumb_line_positions strictLib 4 () (Dbl.num 40) (Dbl.num (-73)) (Dbl.num 45)
      sampleDistances 3 sampleBuffer sampleBuffer).2.lon2 =
      [Dbl.num (-73), Dbl.num (-68), Dbl.num (-66)] :=
  ⟨(rhumb_line_positions_eq_map strictLib 4 () (Dbl.num 40) (Dbl.num (-73)) (Dbl.num 45)
      sampleDistances 3 sampleBuffer sampleBuffer _ _ (by decide) (by decide) (by decide)
      (by decide) (by decide)
      (by
        intro i s hi hs
        have hmem : s ∈ sampleDistances := List.getElem?_mem hs
        simp only [sampleDistances, List.mem_cons, List.mem_singleton, List.not_mem_nil,
          or_false] at hmem
        rcases hmem with h | h | h <;> subst h <;> exact ⟨_, rfl⟩)
      rfl).1,
   by decide, by decide⟩

/-- C2: each entry is computed independently.  For two distance sequences
that agree at index `i`, two runs with the same solver, start point and azimuth
that both return normally hold the same pair at index `i` of their outputs,
whatever the other distances and the prior contents of the output arrays. -/
theorem rhumb_line_positions_entry_independent {R L D E : Type}
    (lib : GeographicLib R L D E) (fuel fuel' : Nat) (rhumb : R) (lat1 lon1 azi12 : D)
    (s s' : List D) (n : Nat) (lat2 lon2 lat2' lon2' : List D) (st st' : State D)
    (hn : n < SIZE_MODULUS)
    (hs : n ≤ s.length) (h1 : n ≤ lat2.length) (h2 : n ≤ lon2.length) (hf : n < fuel)
    (hs' : n ≤ s'.length) (h1' : n ≤ lat2'.length) (h2' : n ≤ lon2'.length)
    (hf' : n < fuel')
    (hrun : rhumb_line_positions lib fuel rhumb lat1 lon1 azi12 s n lat2 lon2 =
      (Status.returned, st))
    (hrun' : rhumb_line_positions lib fuel' rhumb lat1 lon1 azi12 s' n lat2' lon2' =
      (Status.returned, st'))
    (i : Nat) (hi : i < n) (heq : s[i]? = s'[i]?) :
    st.lat2[i]? = st'.lat2[i]? ∧ st.lon2[i]? = st'.lon2[i]? ∧
    ∃ lat lon, st.lat2[i]? = some lat ∧ st.lon2[i]? = some lon := by
  obtain ⟨d, lat, lon, a1, a2, a3, a4⟩ :=
    run_returned lib fuel rhumb lat1 lon1 azi12 s n lat2 lon2 st hn hs h1 h2 hf hrun i hi
  obtain ⟨d', lat', lon', b1, b2, b3, b4⟩ :=
    run_returned lib fuel' rhumb lat1 lon1 azi12 s' n lat2' lon2' st' hn hs' h1' h2' hf'
      hrun' i hi
  have hd : d = d' := by
    rw [a1, b1] at heq
    exact Option.some.inj heq
  subst hd
  rw [a2] at b2
  have hp : (lat, lon) = (lat', lon') := Except.ok.inj b2
  have hlat : lat = lat' := congrArg Prod.fst hp
  have hlon : lon = lon' := congrArg Prod.snd hp
  subst hlat; subst hlon
  exact ⟨by rw [a3, b3], by rw [a4, b4], lat, lon, a3, a4⟩

/-- Instance of C2: two sequences that agree at index 1 only, run over
different prior buffer contents. -/
theorem rhumb_line_positions_entry_independent_witness :
    (rhumb_line_positions strictLib 4 () (Dbl.num 40) (Dbl.num (-73)) (Dbl.num 45)
      sampleDistances 3 sampleBuffer sampleBuffer).2.lat2[1]? =
    (rhumb_line_positions strictLib 9 () (Dbl.num 40) (Dbl.num (-73)) (Dbl.num 45)
      [Dbl.num 1, Dbl.num 5, Dbl.num 2] 3 [Dbl.num 0, Dbl.num 0, Dbl.num 0]
      sampleBuffer).2.lat2[1]? :=
  (rhumb_line_positions_entry_independent strictLib 4 9 () (Dbl.num 40) (Dbl.num (-73))
    (Dbl.num 45) sampleDistances [Dbl.num 1, Dbl.num 5, Dbl.num 2] 3 sampleBuffer
    sampleBuffer [Dbl.num 0, Dbl.num 0, Dbl.num 0] sampleBuffer _ _
    (by decide) (by decide) (by decide) (by decide) (by decide) (by decide) (by decide)
    (by decide) (by decide) rfl rfl 1 (by decide) (by decide)).1

/-- C3: a failure on entry `i` does not corrupt earlier results.  If `Position`
raises an error on distance `i` and on no earlier one, the run stops with that
error, every entry `j < i` of the outputs holds the result of `Position` on
distance `j`, and no entry at an index above `i` has been written: it keeps
its prior value and the log has no write to it. -/
theorem rhumb_line_positions_failure_keeps_earlier {R L D E : Type}
    (lib : GeographicLib R L D E) (fuel : Nat) (rhumb : R) (lat1 lon1 azi12 : D)
    (s12 : List D) (n : Nat) (lat2 lon2 : List D) (status : Status E) (st : State D)
    (hn : n < SIZE_MODULUS) (hs : n ≤ s12.length) (h1 : n ≤ lat2.length)
    (h2 : n ≤ lon2.length) (hf : n < fuel)
    (i : Nat) (hi : i < n) (d : D) (e : E) (hd : s12[i]? = some d)
    (hfail : lib.Position (lib.Line rhumb lat1 lon1 azi12) d = Except.error e)
    (hbefore : ∀ j s, j < i → s12[j]? = some s →
      ∃ p, lib.Position (lib.Line rhumb lat1 lon1 azi12) s = Except.ok p)
    (hrun : rhumb_line_positions lib fuel rhumb lat1 lon1 azi12 s12 n lat2 lon2 = (status, st)) :
    status = Status.raised e ∧
    (∀ j, j < i → ∃ s lat lon, s12[j]? = some s ∧
      lib.Position (lib.Line rhumb lat1 lon1 azi12) s = Except.ok (lat, lon) ∧
      st.lat2[j]? = some lat ∧ st.lon2[j]? = some lon) ∧
    (∀ j, i < j → st.lat2[j]? = lat2[j]? ∧ st.lon2[j]? = lon2[j]? ∧
      Event.write_lat2 j ∉ st.trace ∧ Event.write_lon2 j ∉ st.trace) := by
  obtain ⟨k, hk, -, -, -, hw, hfr, hend⟩ :=
    run_spec lib fuel rhumb lat1 lon1 azi12 s12 n lat2 lon2 status st hn hs h1 h2 hf hrun
  have hki : k = i := by
    rcases Nat.lt_trichotomy k i with hlt | heq | hgt
    · rcases hend with ⟨e1, -, -, -⟩ | ⟨-, s, e', e2, e3, -, -⟩
      · omega
      · obtain ⟨p, hp⟩ := hbefore k s hlt e2
        rw [hp] at e3
        cases e3
    · exact heq
    · obtain ⟨s, lat, lon, a1, a2, -, -⟩ := hw i hgt
      rw [hd] at a1
      cases a1
      rw [hfail] at a2
      cases a2
  subst hki
  rcases hend with ⟨e1, -, -, -⟩ | ⟨-, s, e', e2, e3, e4, e5⟩
  · omega
  · rw [hd] at e2
    cases e2
    rw [hfail] at e3
    cases e3
    refine ⟨e4, hw, ?_⟩
    intro j hj
    obtain ⟨f1, f2⟩ := hfr j (le_of_lt hj)
    refine ⟨f1, f2, ?_, ?_⟩
    · intro hmem
      rw [e5] at hmem
      rcases mem_trace_cases s12 k _ lat1 lon1 azi12 _ hmem with h | ⟨j', s', hj', -, hb⟩ | h
      · cases h
      · simp [bodyEvents] at hb
        omega
      · simp [abortEvents] at h
    · intro hmem
      rw [e5] at hmem
      rcases mem_trace_cases s12 k _ lat1 lon1 azi12 _ hmem with h | ⟨j', s', hj', -, hb⟩ | h
      · cases h
      · simp [bodyEvents] at hb
        omega
      · simp [abortEvents] at h

/-- Instance of C3: the distance at index 1 is not-a-number and the sample
library raises an error on it; entry 0 holds its result, entries 1 and 2 keep
their prior value. -/
theorem rhumb_line_positions_failure_keeps_earlier_witness :
    (rhumb_line_positions strictLib 4 () (Dbl.num 40) (Dbl.num (-73)) (Dbl.num 45)
      [Dbl.num 3, Dbl.nan, Dbl.num 7] 3 sampleBuffer sampleBuffer).1 =
      Status.raised GeographicErr.nonFinite ∧
    (rhumb_line_positions strictLib 4 () (Dbl.num 40) (Dbl.num (-73)) (Dbl.num 45)
      [Dbl.num 3, Dbl.nan, Dbl.num 7] 3 sampleBuffer sampleBuffer).2.lat2 =
      [Dbl.num 43, Dbl.nan, Dbl.nan] ∧
    (rhumb_line_positions strictLib 4 () (Dbl.num 40) (Dbl.num (-73)) (Dbl.num 45)
      [Dbl.num 3, Dbl.nan, Dbl.num 7] 3 sampleBuffer sampleBuffer).2.lon2 =
      [Dbl.num (-70), Dbl.nan, Dbl.nan] :=
  ⟨(rhumb_line_positions_failure_keeps_earlier strictLib 4 () (Dbl.num 40) (Dbl.num (-73))
      (Dbl.num 45) [Dbl.num 3, Dbl.nan, Dbl.num 7] 3 sampleBuffer sampleBuffer _ _
      (by decide) (by decide) (by decide) (by decide) (by decide)
      1 (by decide) Dbl.nan GeographicErr.nonFinite rfl rfl
      (by
        intro j s hj hs
        have hj0 : j = 0 := by omega
        subst hj0
        have hs3 : s = Dbl.num 3 := by simpa using hs.symm
        subst hs3
        exact ⟨_, rfl⟩)
      rfl).1,
   by decide, by decide⟩

/-- C4: on lines whose `Position` follows the error policy of the
specification, the batch evaluator fails only if an individual distance is
non-finite.  A run that ends with an error has a non-finite distance among its
first `n`; and for every solver, start point, azimuth and sequence whose first
`n` distances are all finite, the run returns normally and has written all `n`
results, each the numerical result for its distance. -/
theorem rhumb_line_positions_fails_only_if_nonfinite {E : Type} (fuel : Nat)
    (rhumb : PolicyRhumb E) (lat1 lon1 azi12 : Double) (s12 : List Double) (n : Nat)
    (lat2 lon2 : List Double) (status : Status E) (st : State Double)
    (hn : n < SIZE_MODULUS) (hs : n ≤ s12.length) (h1 : n ≤ lat2.length)
    (h2 : n ≤ lon2.length) (hf : n < fuel)
    (hrun : rhumb_line_positions (specLib Double E) fuel rhumb.toRhumb lat1 lon1 azi12 s12 n
      lat2 lon2 = (status, st)) :
    (∀ e, status = Status.raised e →
      ∃ i d, i < n ∧ s12[i]? = some d ∧ d.isFinite = false) ∧
    ((∀ i d, i < n → s12[i]? = some d → d.isFinite = true) →
      status = Status.returned ∧
      ∀ i, i < n → Event.write_lat2 i ∈ st.trace ∧ Event.write_lon2 i ∈ st.trace ∧
        ∃ d, s12[i]? = some d ∧
          st.lat2[i]? = some (rhumb.positionOnFinite lat1 lon1 azi12 d).1 ∧
          st.lon2[i]? = some (rhumb.positionOnFinite lat1 lon1 azi12 d).2) := by
  have hpol : ∀ d : Double,
      (specLib Double E).Position ((specLib Double E).Line rhumb.toRhumb lat1 lon1 azi12) d =
        if d.isFinite = true then Except.ok (rhumb.positionOnFinite lat1 lon1 azi12 d)
        else rhumb.onNonFinite lat1 lon1 azi12 d := fun _ => rfl
  obtain ⟨k, hk, -, -, -, hw, -, hend⟩ :=
    run_spec (specLib Double E) fuel rhumb.toRhumb lat1 lon1 azi12 s12 n lat2 lon2 status st
      hn hs h1 h2 hf hrun
  refine ⟨?_, ?_⟩
  · intro e he
    rcases hend with ⟨-, e2, -, -⟩ | ⟨e1, d, e', e2, e3, e4, -⟩
    · rw [e2] at he
      cases he
    · refine ⟨k, d, e1, e2, ?_⟩
      cases hfin : d.isFinite with
      | false => rfl
      | true =>
        rw [hpol d, hfin] at e3
        simp at e3
  · intro hall
    rcases hend with ⟨e1, e2, -, e4⟩ | ⟨e1, d, e', e2, e3, -, -⟩
    · subst e1
      refine ⟨e2, ?_⟩
      intro i hi
      obtain ⟨d, lat, lon, a1, a2, a3, a4⟩ := hw i hi
      have hfin := hall i d hi a1
      rw [hpol d, hfin] at a2
      simp only [if_true] at a2
      have hp : rhumb.positionOnFinite lat1 lon1 azi12 d = (lat, lon) := Except.ok.inj a2
      refine ⟨?_, ?_, d, a1, ?_, ?_⟩
      · rw [e4]
        exact List.mem_cons_of_mem _
          (bodyEvents_subset_completedEvents s12 i d a1 _ (by simp [bodyEvents]) k 0
            (Nat.zero_le _) (by omega))
      · rw [e4]
        exact List.mem_cons_of_mem _
          (bodyEvents_subset_completedEvents s12 i d a1 _ (by simp [bodyEvents]) k 0
            (Nat.zero_le _) (by omega))
      · rw [hp]; exact a3
      · rw [hp]; exact a4
    · have hfin := hall k d e1 e2
      rw [hpol d, hfin] at e3
      simp at e3

/-- Instance of C4: three finite distances, one of them negative, on the
sample solver with the error policy, where the run returns normally; and a
run that ends with an error, whose distance at index 1 is not-a-number. -/
theorem rhumb_line_positions_fails_only_if_nonfinite_witness :
    (rhumb_line_positions (specLib Double GeographicErr) 4 samplePolicyRhumb.toRhumb
      (Double.finite false 40 0) (Double.finite true 73 0) (Double.finite false 45 0)
      [Double.finite false 0 0, Double.finite false 5 3, Double.finite true 7 2] 3
      [Double.nan, Double.nan, Double.nan] [Double.nan, Double.nan, Double.nan]).1 =
      Status.returned ∧
    (rhumb_line_positions (specLib Double GeographicErr) 3 samplePolicyRhumb.toRhumb
      (Double.finite false 40 0) (Double.finite true 73 0) (Double.finite false 45 0)
      [Double.finite false 5 3, Double.nan] 2
      [Double.nan, Double.nan] [Double.nan, Double.nan]).1 =
      Status.raised GeographicErr.nonFinite ∧
    (∃ i d, i < 2 ∧ [Double.finite false 5 3, Double.nan][i]? = some d ∧
      d.isFinite = false) :=
  ⟨((rhumb_line_positions_fails_only_if_nonfinite 4 samplePolicyRhumb
         (Double.finite false 40 0) (Double.finite true 73 0) (Double.finite false 45 0)
         [Double.finite false 0 0, Double.finite false 5 3, Double.finite true 7 2] 3
         [Double.nan, Double.nan, Double.nan] [Double.nan, Double.nan, Double.nan] _ _
         (by decide) (by decide) (by decide) (by decide) (by decide) rfl).2
       (by
         intro i d hi hd
         have hmem := List.getElem?_mem hd
         simp only [List.mem_cons, List.mem_singleton, List.not_mem_nil, or_false] at hmem
         rcases hmem with h | h | h <;> subst h <;> rfl)).1,
   by decide,
   (rhumb_line_positions_fails_only_if_nonfinite 3 samplePolicyRhumb
      (Double.finite false 40 0) (Double.finite true 73 0) (Double.finite false 45 0)
      [Double.finite false 5 3, Double.nan] 2
      [Double.nan, Double.nan] [Double.nan, Double.nan] _ _
      (by decide) (by decide) (by decide) (by decide) (by decide) rfl).1
      GeographicErr.nonFinite (by decide)⟩

/-- C5, as stated, fails: the function has no check of its own.  On the sample
library whose `Position` raises no error, the not-a-number distance at index 0
is passed to `Position`, the run returns normally, and both outputs at index 0
hold not-a-number. -/
theorem rhumb_line_positions_nonfinite_returns_normally :
    Dbl.isFinite Dbl.nan = false ∧
    (rhumb_line_positions quietLib 2 () (Dbl.num 40) (Dbl.num (-73)) (Dbl.num 45)
      [Dbl.nan] 1 [Dbl.num 0] [Dbl.num 0]).1 = Status.returned ∧
    (rhumb_line_positions quietLib 2 () (Dbl.num 40) (Dbl.num (-73)) (Dbl.num 45)
      [Dbl.nan] 1 [Dbl.num 0] [Dbl.num 0]).2.lat2 = [Dbl.nan] ∧
    (rhumb_line_positions quietLib 2 () (Dbl.num 40) (Dbl.num (-73)) (Dbl.num 45)
      [Dbl.nan] 1 [Dbl.num 0] [Dbl.num 0]).2.lon2 = [Dbl.nan] := by
  decide

/-- C5, amended: the function reports an error exactly when `Position` raises
one on one of the first `n` distances, and the error is the one `Position`
raised; when `Position` returns normally on every distance, finite or not, the
function returns normally, and a run that returns normally has written what
`Position` returned for each distance. -/
theorem rhumb_line_positions_error_iff {R L D E : Type}
    (lib : GeographicLib R L D E) (fuel : Nat) (rhumb : R)
    (lat1 lon1 azi12 : D) (s12 : List D) (n : Nat) (lat2 lon2 : List D)
    (status : Status E) (st : State D)
    (hn : n < SIZE_MODULUS) (hs : n ≤ s12.length) (h1 : n ≤ lat2.length)
    (h2 : n ≤ lon2.length) (hf : n < fuel)
    (hrun : rhumb_line_positions lib fuel rhumb lat1 lon1 azi12 s12 n lat2 lon2 = (status, st)) :
    (∀ e, status = Status.raised e → ∃ i d, i < n ∧ s12[i]? = some d ∧
      lib.Position (lib.Line rhumb lat1 lon1 azi12) d = Except.error e) ∧
    ((∃ i d e, i < n ∧ s12[i]? = some d ∧
      lib.Position (lib.Line rhumb lat1 lon1 azi12) d = Except.error e) →
      ∃ e, status = Status.raised e) ∧
    ((∀ i d, i < n → s12[i]? = some d →
      ∃ p, lib.Position (lib.Line rhumb lat1 lon1 azi12) d = Except.ok p) →
      status = Status.returned) ∧
    (status = Status.returned → ∀ i, i < n → ∃ s lat lon, s12[i]? = some s ∧
      lib.Position (lib.Line rhumb lat1 lon1 azi12) s = Except.ok (lat, lon) ∧
      st.lat2[i]? = some lat ∧ st.lon2[i]? = some lon) := by
  obtain ⟨k, hk, -, -, -, hw, -, hend⟩ :=
    run_spec lib fuel rhumb lat1 lon1 azi12 s12 n lat2 lon2 status st hn hs h1 h2 hf hrun
  refine ⟨?_, ?_, ?_, ?_⟩
  · intro e he
    rcases hend with ⟨-, e2, -, -⟩ | ⟨e1, s, e', e2, e3, e4, -⟩
    · rw [e2] at he
      cases he
    · rw [e4] at he
      cases he
      exact ⟨k, s, e1, e2, e3⟩
  · rintro ⟨i, d, e, hi, hd, he⟩
    rcases hend with ⟨e1, -, -, -⟩ | ⟨-, s, e', -, -, e4, -⟩
    · subst e1
      obtain ⟨s, lat, lon, a1, a2, -, -⟩ := hw i hi
      rw [hd] at a1
      cases a1
      rw [he] at a2
      cases a2
    · exact ⟨e', e4⟩
  · intro hall
    exact run_all_ok lib fuel rhumb lat1 lon1 azi12 s12 n lat2 lon2 status st hn hs h1 h2 hf
      hall hrun
  · intro hret
    subst hret
    exact run_returned lib fuel rhumb lat1 lon1 azi12 s12 n lat2 lon2 st hn hs h1 h2 hf hrun

/-- Instance of the amended C5: the sample library raises an error on the
not-a-number distance at index 1, and the run reports it. -/
theorem rhumb_line_positions_error_iff_witness :
    ∃ e, (rhumb_line_positions strictLib 4 () (Dbl.num 40) (Dbl.num (-73)) (Dbl.num 45)
      [Dbl.num 3, Dbl.nan, Dbl.num 7] 3 sampleBuffer sampleBuffer).1 = Status.raised e :=
  (rhumb_line_positions_error_iff strictLib 4 () (Dbl.num 40) (Dbl.num (-73))
      (Dbl.num 45) [Dbl.num 3, Dbl.nan, Dbl.num 7] 3 sampleBuffer sampleBuffer _ _
      (by decide) (by decide) (by decide) (by decide) (by decide) rfl).2.1
    ⟨1, Dbl.nan, GeographicErr.nonFinite, by decide, rfl, rfl⟩

/-- C6: results are not order-dependent.  In a run that returns normally, two
indices that carry the same distance hold the same output pair; and running
on the distances rearranged by a permutation of the indices returns normally
too, with the outputs rearranged by the same permutation. -/
theorem rhumb_line_positions_order_independent {R L D E : Type}
    (lib : GeographicLib R L D E) (fuel : Nat) (rhumb : R) (lat1 lon1 azi12 : D)
    (s12 : List D) (n : Nat) (lat2 lon2 : List D) (st : State D)
    (hn : n < SIZE_MODULUS) (hs : n ≤ s12.length) (h1 : n ≤ lat2.length)
    (h2 : n ≤ lon2.length) (hf : n < fuel)
    (hrun : rhumb_line_positions lib fuel rhumb lat1 lon1 azi12 s12 n lat2 lon2 =
      (Status.returned, st)) :
    (∀ i j, i < n → j < n → s12[i]? = s12[j]? →
      st.lat2[i]? = st.lat2[j]? ∧ st.lon2[i]? = st.lon2[j]?) ∧
    (∀ (σ : Equiv.Perm (Fin n)) (fuel' : Nat) (s12' lat2' lon2' : List D)
      (status' : Status E) (st' : State D),
      n ≤ s12'.length → n ≤ lat2'.length → n ≤ lon2'.length → n < fuel' →
      (∀ k : Fin n, s12'[k.val]? = s12[(σ k).val]?) →
      rhumb_line_positions lib fuel' rhumb lat1 lon1 azi12 s12' n lat2' lon2' =
        (status', st') →
      status' = Status.returned ∧
      ∀ k : Fin n, st'.lat2[k.val]? = st.lat2[(σ k).val]? ∧
        st'.lon2[k.val]? = st.lon2[(σ k).val]?) := by
  have hres := run_returned lib fuel rhumb lat1 lon1 azi12 s12 n lat2 lon2 st hn hs h1 h2 hf hrun
  have hkey : ∀ i j, i < n → j < n → ∀ (t : List D) (u : State D),
      (∀ m, m < n → ∃ s lat lon, t[m]? = some s ∧
        lib.Position (lib.Line rhumb lat1 lon1 azi12) s = Except.ok (lat, lon) ∧
        u.lat2[m]? = some lat ∧ u.lon2[m]? = some lon) →
      t[i]? = s12[j]? → u.lat2[i]? = st.lat2[j]? ∧ u.lon2[i]? = st.lon2[j]? := by
    intro i j hi hj t u hu heq
    obtain ⟨d, lat, lon, a1, a2, a3, a4⟩ := hu i hi
    obtain ⟨d', lat', lon', b1, b2, b3, b4⟩ := hres j hj
    rw [a1, b1] at heq
    cases heq
    rw [a2] at b2
    cases b2
    exact ⟨by rw [a3, b3], by rw [a4, b4]⟩
  refine ⟨fun i j hi hj heq => hkey i j hi hj s12 st hres heq, ?_⟩
  intro σ fuel' s12' lat2' lon2' status' st' hs' h1' h2' hf' hperm hrun'
  have hret : status' = Status.returned := by
    refine run_all_ok lib fuel' rhumb lat1 lon1 azi12 s12' n lat2' lon2' status' st' hn hs' h1'
      h2' hf' ?_ hrun'
    intro i d hi hd
    have hp := hperm ⟨i, hi⟩
    simp only at hp
    rw [hd] at hp
    obtain ⟨d', lat, lon, b1, b2, -, -⟩ := hres (σ ⟨i, hi⟩).val (σ ⟨i, hi⟩).isLt
    rw [b1] at hp
    cases hp
    exact ⟨_, b2⟩
  subst hret
  have hres' := run_returned lib fuel' rhumb lat1 lon1 azi12 s12' n lat2' lon2' st' hn hs' h1'
    h2' hf' hrun'
  exact ⟨rfl, fun k => hkey k.val (σ k).val k.isLt (σ k).isLt s12' st' hres' (hperm k)⟩

/-- Instance of C6: indices 0 and 2 carry the same distance and hold the same
latitude and longitude. -/
theorem rhumb_line_positions_order_independent_witness :
    (rhumb_line_positions strictLib 4 () (Dbl.num 40) (Dbl.num (-73)) (Dbl.num 45)
      [Dbl.num 5, Dbl.num 7, Dbl.num 5] 3 sampleBuffer sampleBuffer).2.lat2[0]? =
    (rhumb_line_positions strictLib 4 () (Dbl.num 40) (Dbl.num (-73)) (Dbl.num 45)
      [Dbl.num 5, Dbl.num 7, Dbl.num 5] 3 sampleBuffer sampleBuffer).2.lat2[2]? ∧
    (rhumb_line_positions strictLib 4 () (Dbl.num 40) (Dbl.num (-73)) (Dbl.num 45)
      [Dbl.num 5, Dbl.num 7, Dbl.num 5] 3 sampleBuffer sampleBuffer).2.lon2[0]? =
    (rhumb_line_positions strictLib 4 () (Dbl.num 40) (Dbl.num (-73)) (Dbl.num 45)
      [Dbl.num 5, Dbl.num 7, Dbl.num 5] 3 sampleBuffer sampleBuffer).2.lon2[2]? ∧
    (rhumb_line_positions strictLib 5 () (Dbl.num 40) (Dbl.num (-73)) (Dbl.num 45)
      [Dbl.num 7, Dbl.num 5, Dbl.num 5] 3 sampleBuffer sampleBuffer).1 = Status.returned :=
  ⟨((rhumb_line_positions_order_independent strictLib 4 () (Dbl.num 40) (Dbl.num (-73))
      (Dbl.num 45) [Dbl.num 5, Dbl.num 7, Dbl.num 5] 3 sampleBuffer sampleBuffer _
      (by decide) (by decide) (by decide) (by decide) (by decide) rfl).1
      0 2 (by decide) (by decide) (by decide)).1,
   ((rhumb_line_positions_order_independent strictLib 4 () (Dbl.num 40) (Dbl.num (-73))
      (Dbl.num 45) [Dbl.num 5, Dbl.num 7, Dbl.num 5] 3 sampleBuffer sampleBuffer _
      (by decide) (by decide) (by decide) (by decide) (by decide) rfl).1
      0 2 (by decide) (by decide) (by decide)).2,
   ((rhumb_line_positions_order_independent strictLib 4 () (Dbl.num 40) (Dbl.num (-73))
      (Dbl.num 45) [Dbl.num 5, Dbl.num 7, Dbl.num 5] 3 sampleBuffer sampleBuffer _
      (by decide) (by decide) (by decide) (by decide) (by decide) rfl).2
      (Equiv.swap 0 1) 5 [Dbl.num 7, Dbl.num 5, Dbl.num 5] sampleBuffer sampleBuffer _ _
      (by decide) (by decide) (by decide) (by decide) (by decide) rfl).1⟩

/-- C9: when the three arrays hold at least `num_positions` elements, the run
ends without an access past the end of an array and without exhausting the
evaluation budget; every index at which an array is read or written is below
`num_positions`; every increment of the index yields its successor, so the
index never wraps; at most `num_positions` iterations are begun, and a run
that returns normally has made exactly `num_positions` iterations and leaves
the index at `num_positions`. -/
theorem rhumb_line_positions_in_bounds {R L D E : Type}
    (lib : GeographicLib R L D E) (fuel : Nat) (rhumb : R) (lat1 lon1 azi12 : D)
    (s12 : List D) (n : Nat) (lat2 lon2 : List D) (status : Status E) (st : State D)
    (hn : n < SIZE_MODULUS) (hs : n ≤ s12.length) (h1 : n ≤ lat2.length)
    (h2 : n ≤ lon2.length) (hf : n < fuel)
    (hrun : rhumb_line_positions lib fuel rhumb lat1 lon1 azi12 s12 n lat2 lon2 = (status, st)) :
    status ≠ Status.outOfBounds ∧ status ≠ Status.outOfFuel ∧
    (∀ j, Event.read_s12 j ∈ st.trace ∨ Event.write_lat2 j ∈ st.trace ∨
      Event.write_lon2 j ∈ st.trace → j < n) ∧
    (∀ j next, Event.incr j next ∈ st.trace → j < n ∧ next = j + 1 ∧ next < SIZE_MODULUS) ∧
    iterations st.trace ≤ n ∧
    (status = Status.returned → iterations st.trace = n ∧ st.i = n) := by
  obtain ⟨k, hk, -, -, -, -, -, hend⟩ :=
    run_spec lib fuel rhumb lat1 lon1 azi12 s12 n lat2 lon2 status st hn hs h1 h2 hf hrun
  have hcount : iterations (completedEvents s12 0 k) = k :=
    iterations_completedEvents s12 k 0 (by omega)
  have hshape : ∃ tail : List (Event D),
      st.trace = Event.line lat1 lon1 azi12 :: (completedEvents s12 0 k ++ tail) ∧
      ((status = Status.returned ∧ k = n ∧ st.i = n ∧ tail = []) ∨
       (∃ s e, status = Status.raised e ∧ k < n ∧ tail = abortEvents s k)) := by
    rcases hend with ⟨e1, e2, e3, e4⟩ | ⟨e1, s, e, -, -, e4, e5⟩
    · exact ⟨[], by rw [e4, e1, List.append_nil], Or.inl ⟨e2, e1, e3, rfl⟩⟩
    · exact ⟨abortEvents s k, e5, Or.inr ⟨s, e, e4, e1, rfl⟩⟩
  obtain ⟨tail, htr, hcase⟩ := hshape
  have htail : ∀ ev, ev ∈ tail → ∃ s, k < n ∧ (ev = Event.read_s12 k ∨ ev = Event.position s) := by
    intro ev hev
    rcases hcase with ⟨-, -, -, e4⟩ | ⟨s, e, -, e2, e3⟩
    · rw [e4] at hev
      cases hev
    · rw [e3] at hev
      simp only [abortEvents, List.mem_cons, List.mem_singleton, List.not_mem_nil,
        or_false] at hev
      exact ⟨s, e2, hev⟩
  have hiter : iterations st.trace = k + iterations tail := by
    rw [htr]
    unfold iterations at hcount ⊢
    rw [List.countP_cons, List.countP_append, hcount]
    simp [Event.isPositionCall]
  refine ⟨?_, ?_, ?_, ?_, ?_, ?_⟩
  · rcases hcase with ⟨e1, -, -, -⟩ | ⟨s, e, e1, -, -⟩ <;> rw [e1] <;> simp
  · rcases hcase with ⟨e1, -, -, -⟩ | ⟨s, e, e1, -, -⟩ <;> rw [e1] <;> simp
  · intro j hj
    rcases hj with hj | hj | hj <;> rw [htr] at hj <;>
      rcases mem_trace_cases s12 k tail lat1 lon1 azi12 _ hj with h | ⟨j', s', hj', -, hb⟩ | h
    · cases h
    · simp [bodyEvents] at hb
      omega
    · obtain ⟨s, hkn, h | h⟩ := htail _ h
      · cases h
        exact hkn
      · cases h
    · cases h
    · simp [bodyEvents] at hb
      omega
    · obtain ⟨s, hkn, h | h⟩ := htail _ h <;> cases h
    · cases h
    · simp [bodyEvents] at hb
      omega
    · obtain ⟨s, hkn, h | h⟩ := htail _ h <;> cases h
  · intro j next hj
    rw [htr] at hj
    rcases mem_trace_cases s12 k tail lat1 lon1 azi12 _ hj with h | ⟨j', s', hj', -, hb⟩ | h
    · cases h
    · simp [bodyEvents] at hb
      omega
    · obtain ⟨s, hkn, h | h⟩ := htail _ h <;> cases h
  · rw [hiter]
    rcases hcase with ⟨-, e2, -, e4⟩ | ⟨s, e, -, e2, e3⟩
    · rw [e4]
      simp [iterations]
      omega
    · rw [e3]
      simp [iterations, abortEvents, Event.isPositionCall, List.countP_cons]
      omega
  · intro hret
    rcases hcase with ⟨-, e2, e3, e4⟩ | ⟨s, e, e1, -, -⟩
    · rw [hiter, e4]
      simp [iterations]
      exact ⟨e2, e3⟩
    · rw [e1] at hret
      cases hret

/-- Instance of C9: three distances in arrays of three elements. -/
theorem rhumb_line_positions_in_bounds_witness :
    (rhumb_line_positions strictLib 4 () (Dbl.num 40) (Dbl.num (-73)) (Dbl.num 45)
      sampleDistances 3 sampleBuffer sampleBuffer).1 = Status.returned ∧
    iterations (rhumb_line_positions strictLib 4 () (Dbl.num 40) (Dbl.num (-73)) (Dbl.num 45)
      sampleDistances 3 sampleBuffer sampleBuffer).2.trace = 3 ∧
    (rhumb_line_positions strictLib 4 () (Dbl.num 40) (Dbl.num (-73)) (Dbl.num 45)
      sampleDistances 3 sampleBuffer sampleBuffer).2.i = 3 :=
  ⟨by decide,
   (rhumb_line_positions_in_bounds strictLib 4 () (Dbl.num 40) (Dbl.num (-73))
      (Dbl.num 45) sampleDistances 3 sampleBuffer sampleBuffer _ _
      (by decide) (by decide) (by decide) (by decide) (by decide) rfl).2.2.2.2.2 (by decide)⟩

/-- C8: on the solver and line as the specification describes them, the batch
evaluator agrees with the per-point Direct solver: in a run that returns
normally, entry `i` of the outputs is what `Direct` returns for the same
start point, azimuth and distance `i`. -/
theorem rhumb_line_positions_eq_direct {D E : Type} (fuel : Nat) (rhumb : Rhumb D E)
    (lat1 lon1 azi12 : D) (s12 : List D) (n : Nat) (lat2 lon2 : List D) (st : State D)
    (hn : n < SIZE_MODULUS) (hs : n ≤ s12.length) (h1 : n ≤ lat2.length)
    (h2 : n ≤ lon2.length) (hf : n < fuel)
    (hrun : rhumb_line_positions (specLib D E) fuel rhumb lat1 lon1 azi12 s12 n lat2 lon2 =
      (Status.returned, st)) :
    ∀ i, i < n → ∃ s lat lon, s12[i]? = some s ∧ st.lat2[i]? = some lat ∧
      st.lon2[i]? = some lon ∧ rhumb.Direct lat1 lon1 azi12 s = Except.ok (lat, lon) := by
  intro i hi
  obtain ⟨s, lat, lon, a1, a2, a3, a4⟩ :=
    run_returned (specLib D E) fuel rhumb lat1 lon1 azi12 s12 n lat2 lon2 st hn hs h1 h2 hf
      hrun i hi
  exact ⟨s, lat, lon, a1, a3, a4, a2⟩

/-- Instance of C8: three finite distances on the sample solver. -/
theorem rhumb_line_positions_eq_direct_witness :
    ∃ s lat lon, sampleDistances[1]? = some s ∧
      (rhumb_line_positions (specLib Dbl GeographicErr) 4 sampleRhumb (Dbl.num 40)
        (Dbl.num (-73)) (Dbl.num 45) sampleDistances 3 sampleBuffer sampleBuffer).2.lat2[1]? =
        some lat ∧
      (rhumb_line_positions (specLib Dbl GeographicErr) 4 sampleRhumb (Dbl.num 40)
        (Dbl.num (-73)) (Dbl.num 45) sampleDistances 3 sampleBuffer sampleBuffer).2.lon2[1]? =
        some lon ∧
      sampleRhumb.Direct (Dbl.num 40) (Dbl.num (-73)) (Dbl.num 45) s = Except.ok (lat, lon) :=
  rhumb_line_positions_eq_direct 4 sampleRhumb (Dbl.num 40) (Dbl.num (-73)) (Dbl.num 45)
    sampleDistances 3 sampleBuffer sampleBuffer _
    (by decide) (by decide) (by decide) (by decide) (by decide) rfl 1 (by decide)

/-- C10: the function writes only the first `num_positions` entries of `lat2`
and `lon2`.  Every output entry at an index from `num_positions` on keeps its
prior value and is never written, the output arrays keep their length, the
distance array is unchanged, and the line is constructed exactly once; with
`num_positions = 0` the run returns normally with all three arrays unchanged
and a log that holds the construction of the line and nothing else. -/
theorem rhumb_line_positions_frame {R L D E : Type}
    (lib : GeographicLib R L D E) (fuel : Nat) (rhumb : R) (lat1 lon1 azi12 : D)
    (s12 : List D) (n : Nat) (lat2 lon2 : List D) (status : Status E) (st : State D)
    (hn : n < SIZE_MODULUS) (hs : n ≤ s12.length) (h1 : n ≤ lat2.length)
    (h2 : n ≤ lon2.length) (hf : n < fuel)
    (hrun : rhumb_line_positions lib fuel rhumb lat1 lon1 azi12 s12 n lat2 lon2 = (status, st)) :
    st.s12 = s12 ∧ st.lat2.length = lat2.length ∧ st.lon2.length = lon2.length ∧
    (∀ j, n ≤ j → st.lat2[j]? = lat2[j]? ∧ st.lon2[j]? = lon2[j]? ∧
      Event.write_lat2 j ∉ st.trace ∧ Event.write_lon2 j ∉ st.trace) ∧
    lineCalls st.trace = 1 ∧
    rhumb_line_positions lib fuel rhumb lat1 lon1 azi12 s12 0 lat2 lon2 =
      (Status.returned,
        { s12 := s12, lat2 := lat2, lon2 := lon2, i := 0,
          trace := [Event.line lat1 lon1 azi12] }) := by
  obtain ⟨k, hk, hs12, hl1, hl2, -, hfr, hend⟩ :=
    run_spec lib fuel rhumb lat1 lon1 azi12 s12 n lat2 lon2 status st hn hs h1 h2 hf hrun
  have hshape : ∃ tail : List (Event D),
      st.trace = Event.line lat1 lon1 azi12 :: (completedEvents s12 0 k ++ tail) ∧
      (tail = [] ∨ ∃ s, tail = abortEvents s k) := by
    rcases hend with ⟨e1, -, -, e4⟩ | ⟨-, s, e, -, -, -, e5⟩
    · exact ⟨[], by rw [e4, e1, List.append_nil], Or.inl rfl⟩
    · exact ⟨abortEvents s k, e5, Or.inr ⟨s, rfl⟩⟩
  obtain ⟨tail, htr, htail⟩ := hshape
  have hnowrite : ∀ j, n ≤ j → ∀ ev, (ev = Event.write_lat2 j ∨ ev = Event.write_lon2 j) →
      ev ∉ st.trace := by
    intro j hj ev hev hmem
    rw [htr] at hmem
    rcases mem_trace_cases s12 k tail lat1 lon1 azi12 ev hmem with h | ⟨j', s', hj', -, hb⟩ | h
    · rcases hev with h' | h' <;> rw [h'] at h <;> cases h
    · rcases hev with h' | h' <;> rw [h'] at hb <;> simp [bodyEvents] at hb <;> omega
    · rcases htail with ht | ⟨s, ht⟩
      · rw [ht] at h
        cases h
      · rw [ht] at h
        rcases hev with h' | h' <;> rw [h'] at h <;> simp [abortEvents] at h
  refine ⟨hs12, hl1, hl2, ?_, ?_, ?_⟩
  · intro j hj
    obtain ⟨f1, f2⟩ := hfr j (le_trans hk hj)
    exact ⟨f1, f2, hnowrite j hj _ (Or.inl rfl), hnowrite j hj _ (Or.inr rfl)⟩
  · rw [htr]
    have hc := lineCalls_completedEvents s12 0 k
    unfold lineCalls at hc ⊢
    rw [List.countP_cons, List.countP_append, hc]
    rcases htail with ht | ⟨s, ht⟩ <;> rw [ht] <;>
      simp [Event.isLineCall, abortEvents, List.countP_cons]
  · obtain ⟨fuel0, hfuel⟩ : ∃ fuel0, fuel = fuel0 + 1 := ⟨fuel - 1, by omega⟩
    subst hfuel
    exact loop_done lib (lib.Line rhumb lat1 lon1 azi12) 0 fuel0 _ (by simp)

/-- Instance of C10: two distances with output arrays of three entries; the
third entry of each output array keeps its prior value. -/
theorem rhumb_line_positions_frame_witness :
    (rhumb_line_positions strictLib 4 () (Dbl.num 40) (Dbl.num (-73)) (Dbl.num 45)
      sampleDistances 2 [Dbl.num 1, Dbl.num 2, Dbl.num 3]
      [Dbl.num 4, Dbl.num 5, Dbl.num 6]).2.lat2[2]? = some (Dbl.num 3) ∧
    (rhumb_line_positions strictLib 4 () (Dbl.num 40) (Dbl.num (-73)) (Dbl.num 45)
      sampleDistances 2 [Dbl.num 1, Dbl.num 2, Dbl.num 3]
      [Dbl.num 4, Dbl.num 5, Dbl.num 6]).2.lon2[2]? = some (Dbl.num 6) :=
  ⟨((rhumb_line_positions_frame strictLib 4 () (Dbl.num 40) (Dbl.num (-73)) (Dbl.num 45)
      sampleDistances 2 [Dbl.num 1, Dbl.num 2, Dbl.num 3] [Dbl.num 4, Dbl.num 5, Dbl.num 6]
      _ _ (by decide) (by decide) (by decide) (by decide) (by decide) rfl).2.2.2.1 2
      (by decide)).1,
   ((rhumb_line_positions_frame strictLib 4 () (Dbl.num 40) (Dbl.num (-73)) (Dbl.num 45)
      sampleDistances 2 [Dbl.num 1, Dbl.num 2, Dbl.num 3] [Dbl.num 4, Dbl.num 5, Dbl.num 6]
      _ _ (by decide) (by decide) (by decide) (by decide) (by decide) rfl).2.2.2.1 2
      (by decide)).2.1⟩

end RhumbLinePositions
